import Mathlib

/-
Verification of the IBAMR excerpt: the conservative mass/energy transport
integrator (AdvDiffConservativeMassTransportQuantityIntegrator, whose method
bodies are absent from the excerpt and are therefore modelled from the header
documentation and the specification) and the IB hierarchy integrator
(IBHierarchyIntegrator.cpp, fully present).

All field arithmetic is carried out over the rationals; one-dimensional
cell rows are functions from natural-number cell indices, with face j lying
between cell j-1 and cell j, so a row of n cells has faces 0 .. n.
-/

/-! ## Density update stepper (spec-modelled, C1) -/

/-- Modelled from the spec: the mass flux u_adv*rho_half through face j.
The body of computeDensityUpdate is not in the excerpt; the flux form
follows the documentation at its declaration in
src/include/ibamr/AdvDiffConservativeMassTransportQuantityIntegrator.h. -/
def massFlux (U Rhalf : ℕ → ℚ) (j : ℕ) : ℚ := U j * Rhalf j

/-- Modelled from the spec: the discrete divergence div[u_adv*rho_half] at
cell i, the net face flux difference over the cell width. -/
def fluxDivergence (U Rhalf : ℕ → ℚ) (dx : ℚ) (i : ℕ) : ℚ :=
  (massFlux U Rhalf (i + 1) - massFlux U Rhalf i) / dx

/-- Modelled from the spec: computeDensityUpdate.  The body is not in the
excerpt; the formula is the one documented at the declaration
(AdvDiffConservativeMassTransportQuantityIntegrator.h, line 270):
rho = a0*rho^0 + a1*rho^1 + a2*dt*(-div[u_adv*rho_half]) + a2*dt*S. -/
def computeDensityUpdate (a0 a1 a2 dt dx : ℚ) (R0 R1 S U Rhalf : ℕ → ℚ)
    (i : ℕ) : ℚ :=
  a0 * R0 i + a1 * R1 i + a2 * dt * (-(fluxDivergence U Rhalf dx i)) +
    a2 * dt * S i

/-- The formula asserted by the claim, written from the words of the spec:
new = a0*old + a1*current + a2*dt*(flux_divergence + source), with the
divergence entering with a positive sign. -/
def claimedDensityUpdate (a0 a1 a2 dt dx : ℚ) (R0 R1 S U Rhalf : ℕ → ℚ)
    (i : ℕ) : ℚ :=
  a0 * R0 i + a1 * R1 i + a2 * dt * (fluxDivergence U Rhalf dx i + S i)

/-- C1 counterexample: at a concrete one-cell configuration with unit face
velocity gradient the stepper value and the value claimed by the spec
formula differ (the divergence term enters with opposite signs). -/
theorem densityUpdate_sign_counterexample :
    computeDensityUpdate 0 1 1 1 1 (fun _ => 0) (fun _ => 0) (fun _ => 0)
        (fun j => (j : ℚ)) (fun _ => 1) 0 ≠
      claimedDensityUpdate 0 1 1 1 1 (fun _ => 0) (fun _ => 0) (fun _ => 0)
        (fun j => (j : ℚ)) (fun _ => 1) 0 := by
  norm_num [computeDensityUpdate, claimedDensityUpdate, fluxDivergence,
    massFlux]

/-- C1 (amended): in every cell the stepper produces
new = a0*old + a1*current + a2*dt*(source - flux_divergence), where
flux_divergence is the discrete divergence of u_adv*rho_half: the
divergence term enters with a negative sign, as documented at the
declaration of computeDensityUpdate. -/
theorem densityUpdate_amended_formula (a0 a1 a2 dt dx : ℚ)
    (R0 R1 S U Rhalf : ℕ → ℚ) (i : ℕ) :
    computeDensityUpdate a0 a1 a2 dt dx R0 R1 S U Rhalf i =
      a0 * R0 i + a1 * R1 i +
        a2 * dt * (S i - fluxDivergence U Rhalf dx i) := by
  unfold computeDensityUpdate
  ring

/-! ## Convective derivative assembler (spec-modelled, C4) -/

/-- Modelled from the spec: the face product flux U*rho*Cp*T, all four
quantities evaluated at the same face center.  The body of
computeConvectiveDerivative is not in the excerpt; its declaration
documents the operator div[rho_half*cp_half*u_adv*T_half]. -/
def productFlux (U R C T : ℕ → ℚ) (j : ℕ) : ℚ := U j * R j * C j * T j

/-- Modelled from the spec: computeConvectiveDerivative at cell i, the
discrete divergence of the face product flux over the cell width. -/
def computeConvectiveDerivative (U R C T : ℕ → ℚ) (dx : ℚ) (i : ℕ) : ℚ :=
  (productFlux U R C T (i + 1) - productFlux U R C T i) / dx

/-- The formula written from the words of the spec:
N_cell[i] = (1/volume) * sum over faces of
normal_sign * U_face * rho_face * Cp_face * T_face * face_area,
with cell volume dx*A and face area A. -/
def specConvectiveFormula (U R C T : ℕ → ℚ) (dx A : ℚ) (i : ℕ) : ℚ :=
  (1 / (dx * A)) *
    (productFlux U R C T (i + 1) * A + (-1) * productFlux U R C T i * A)

/-- C4: the convective derivative assembler realizes the spec formula
(1/volume) * sum over faces of signed face flux times face area, and
summing it over two adjacent cells telescopes the shared-face flux. -/
theorem convective_derivative_formula_and_telescoping (U R C T : ℕ → ℚ)
    (dx A : ℚ) (hdx : dx ≠ 0) (hA : A ≠ 0) (i : ℕ) :
    computeConvectiveDerivative U R C T dx i =
        specConvectiveFormula U R C T dx A i ∧
      dx * (computeConvectiveDerivative U R C T dx i +
          computeConvectiveDerivative U R C T dx (i + 1)) =
        productFlux U R C T (i + 2) - productFlux U R C T i := by
  constructor
  · unfold computeConvectiveDerivative specConvectiveFormula
    field_simp
    ring
  · unfold computeConvectiveDerivative
    have h2 : i + 1 + 1 = i + 2 := rfl
    rw [h2]
    field_simp

/-- C4 witness: the theorem at a concrete face configuration. -/
theorem convective_derivative_formula_and_telescoping_witness :
    computeConvectiveDerivative (fun j => (j : ℚ)) (fun _ => 2) (fun _ => 3)
          (fun _ => 5) 1 0 =
        specConvectiveFormula (fun j => (j : ℚ)) (fun _ => 2) (fun _ => 3)
          (fun _ => 5) 1 1 0 ∧
      1 * (computeConvectiveDerivative (fun j => (j : ℚ)) (fun _ => 2)
            (fun _ => 3) (fun _ => 5) 1 0 +
          computeConvectiveDerivative (fun j => (j : ℚ)) (fun _ => 2)
            (fun _ => 3) (fun _ => 5) 1 1) =
        productFlux (fun j => (j : ℚ)) (fun _ => 2) (fun _ => 3)
            (fun _ => 5) 2 -
          productFlux (fun j => (j : ℚ)) (fun _ => 2) (fun _ => 3)
            (fun _ => 5) 0 :=
  convective_derivative_formula_and_telescoping
    (fun j => (j : ℚ)) (fun _ => 2) (fun _ => 3) (fun _ => 5) 1 1
    (by norm_num) (by norm_num) 0

/-! ## Temporal buffer degeneration (spec-modelled, C5) -/

/-- Modelled from the spec: the unset patch data index sentinel
(IBTK::invalid_index, whose definition is outside the excerpt; its numeric
value is immaterial to the fallback contract). -/
def invalidIndex : Int := -1

/-- The old/current/new patch data index triple set by
setSpecificHeatPatchDataIndices and setTemperaturePatchDataIndices
(the velocity analogue is commented out in the excerpt header). -/
structure TemporalIndices where
  oldIdx : Int
  currentIdx : Int
  newIdx : Int

/-- Modelled from the spec: the documented degeneration to the current
index when the old index is not set. -/
def resolveOld (t : TemporalIndices) : Int :=
  if t.oldIdx = invalidIndex then t.currentIdx else t.oldIdx

/-- Modelled from the spec: the documented degeneration to the current
index when the new index is not set. -/
def resolveNew (t : TemporalIndices) : Int :=
  if t.newIdx = invalidIndex then t.currentIdx else t.newIdx

/-- The effective buffer triple the integrator computes with; every
downstream output is a function of this triple. -/
def effectiveIndices (t : TemporalIndices) : Int × Int × Int :=
  (resolveOld t, t.currentIdx, resolveNew t)

/-- C5: leaving the old (or new) buffer index unset resolves to the same
effective buffer triple as explicitly setting it equal to the current
index, so the integrator output is identical in the two runs; the
resolution is a total function, so no error is raised. -/
theorem temporal_buffer_degeneration (o c n : Int) :
    effectiveIndices ⟨invalidIndex, c, n⟩ = effectiveIndices ⟨c, c, n⟩ ∧
      effectiveIndices ⟨o, c, invalidIndex⟩ = effectiveIndices ⟨o, c, c⟩ ∧
      resolveOld ⟨invalidIndex, c, n⟩ = c ∧
      resolveNew ⟨o, c, invalidIndex⟩ = c := by
  refine ⟨?_, ?_, ?_, ?_⟩ <;>
    simp only [effectiveIndices, resolveOld, resolveNew] <;>
    split_ifs <;> simp_all

/-! ## Transport integrator lifecycle (spec-modelled, C6) -/

/-- Modelled from the spec: the hierarchy-dependent state owned by the
transport integrator.  Ghost fill schedules and scratch allocations are
released by deallocation; the configuration (limiter ghost widths,
boundary extrapolation choices) survives it. -/
structure TransportIntegratorState where
  initialized : Bool
  cpFillSched : Option ℕ
  tFillSched : Option ℕ
  scratchAllocated : Bool
  temperatureLimiterGcw : ℕ
  specificHeatLimiterGcw : ℕ
  deriving DecidableEq

/-- Modelled from the spec: deallocateTimeIntegrator releases scratch
fields and schedules; its body is not in the excerpt, and its declaration
documents that calling it when already deallocated is safe. -/
def deallocateTimeIntegrator (s : TransportIntegratorState) :
    TransportIntegratorState :=
  { s with initialized := false, cpFillSched := none, tFillSched := none,
           scratchAllocated := false }

/-- C6: deallocation is a total function (no error path), and calling it
twice in a row leaves a state identical to calling it once. -/
theorem deallocateTimeIntegrator_idempotent (s : TransportIntegratorState) :
    deallocateTimeIntegrator (deallocateTimeIntegrator s) =
      deallocateTimeIntegrator s := rfl

/-! ## Composite grid, coarse-fine flux corrector (spec-modelled, C2 and C8) -/

/-- Modelled from the spec: the per-cell face flux views of a composite
two-level one-dimensional grid.  FL i and FR i are the fluxes the update
uses at the left face (face i) and right face (face i+1) of cell i; at a
coarse-fine interface face the two adjacent cells may initially hold
different flux values (computed on different levels).  isCF marks the
coarse-fine interface faces and fineOnRight records which side of such a
face is the fine one. -/
structure CompositeFluxes where
  FL : ℕ → ℚ
  FR : ℕ → ℚ
  isCF : ℕ → Bool
  fineOnRight : ℕ → Bool

/-- Modelled from the spec: enforceDivergenceFreeConditionAtCoarseFineInterface,
whose body is not in the excerpt.  Following the contract in the spec, it
walks the coarse-fine interface faces and adjusts the fine-side flux
contribution there to match the flux entering from the coarse side, and
touches nothing else. -/
def enforceConservation (c : CompositeFluxes) : CompositeFluxes :=
  { c with
    FL := fun j => if c.isCF j && c.fineOnRight j then c.FR (j - 1) else c.FL j,
    FR := fun i =>
      if c.isCF (i + 1) && !(c.fineOnRight (i + 1)) then c.FL (i + 1)
      else c.FR i }

/-- Modelled from the spec: one density update on the composite grid, the
stepper formula of computeDensityUpdate applied with old = current = rho
and the per-cell flux views (the divergence at cell i is the net face flux
difference over the cell volume). -/
def compositeUpdate (a0 a1 a2 dt : ℚ) (vol rho S : ℕ → ℚ)
    (c : CompositeFluxes) (i : ℕ) : ℚ :=
  a0 * rho i + a1 * rho i + a2 * dt * (-((c.FR i - c.FL i) / vol i)) +
    a2 * dt * S i

/-- The sum over all cells of density times cell volume. -/
def totalMass (n : ℕ) (vol rho : ℕ → ℚ) : ℚ :=
  ∑ i ∈ Finset.range n, vol i * rho i

/-- After the corrector runs, the two flux views of any interior face
agree, provided same-level faces were consistent to begin with. -/
lemma enforce_matched (c : CompositeFluxes) (j : ℕ)
    (h : c.isCF (j + 1) = false → c.FR j = c.FL (j + 1)) :
    (enforceConservation c).FR j = (enforceConservation c).FL (j + 1) := by
  by_cases hcf : c.isCF (j + 1)
  · by_cases hf : c.fineOnRight (j + 1)
    · simp [enforceConservation, hcf, hf]
    · simp [enforceConservation, hcf, hf]
  · simp only [Bool.not_eq_true] at hcf
    simp [enforceConservation, hcf, h hcf]

/-- A single update with matched face fluxes, convex old/current weights,
zero source and zero boundary flux conserves the total mass. -/
lemma compositeUpdate_mass (n : ℕ) (a0 a1 a2 dt : ℚ) (vol rho S : ℕ → ℚ)
    (c : CompositeFluxes)
    (ha : a0 + a1 = 1) (hS : ∀ i, i < n → S i = 0)
    (hvol : ∀ i, i < n → vol i ≠ 0)
    (hmatch : ∀ j, j + 1 < n → c.FR j = c.FL (j + 1))
    (hb0 : c.FL 0 = 0) (hbn : 1 ≤ n → c.FR (n - 1) = 0) :
    totalMass n vol (fun i => compositeUpdate a0 a1 a2 dt vol rho S c i) =
      totalMass n vol rho := by
  rcases Nat.eq_zero_or_pos n with hn | hn
  · subst hn
    simp [totalMass]
  · set G : ℕ → ℚ := fun j => if j < n then c.FL j else c.FR (n - 1) with hG
    have hterm : ∀ i ∈ Finset.range n,
        vol i * compositeUpdate a0 a1 a2 dt vol rho S c i =
          vol i * rho i - a2 * dt * (G (i + 1) - G i) := by
      intro i hi
      rw [Finset.mem_range] at hi
      have hFL : G i = c.FL i := by simp [hG, hi]
      have hFR : G (i + 1) = c.FR i := by
        by_cases h1 : i + 1 < n
        · simp [hG, h1, (hmatch i h1).symm]
        · have hieq : i = n - 1 := by omega
          subst hieq
          simp [hG, h1]
      have hv := hvol i hi
      have hdiv : vol i * ((c.FR i - c.FL i) / vol i) = c.FR i - c.FL i := by
        field_simp
      unfold compositeUpdate
      rw [hS i hi, hFL, hFR]
      linear_combination vol i * rho i * ha - a2 * dt * hdiv
    calc totalMass n vol (fun i => compositeUpdate a0 a1 a2 dt vol rho S c i)
        = ∑ i ∈ Finset.range n,
            (vol i * rho i - a2 * dt * (G (i + 1) - G i)) :=
          Finset.sum_congr rfl hterm
      _ = ∑ i ∈ Finset.range n, vol i * rho i -
            a2 * dt * ∑ i ∈ Finset.range n, (G (i + 1) - G i) := by
          rw [Finset.sum_sub_distrib, ← Finset.mul_sum]
      _ = totalMass n vol rho := by
          rw [Finset.sum_range_sub G n]
          have hGn : G n = 0 := by simp [hG, hbn hn]
          have hG0 : G 0 = 0 := by simp [hG, hn, hb0]
          simp [totalMass, hGn, hG0]

/-- Modelled from the spec: the cell volumes after an AMR regrid that
refines the last cell of an n-cell grid by ratio two. -/
def refineLastVol (n : ℕ) (vol : ℕ → ℚ) : ℕ → ℚ :=
  fun i => if i + 1 < n then vol i else vol (n - 1) / 2

/-- Modelled from the spec: the cell densities after the same regrid,
transferred by the conservative constant interpolant. -/
def refineLastRho (n : ℕ) (rho : ℕ → ℚ) : ℕ → ℚ :=
  fun i => if i + 1 < n then rho i else rho (n - 1)

/-- The conservative regrid preserves the total mass. -/
lemma refineLast_mass (n : ℕ) (hn : 1 ≤ n) (vol rho : ℕ → ℚ) :
    totalMass (n + 1) (refineLastVol n vol) (refineLastRho n rho) =
      totalMass n vol rho := by
  obtain ⟨m, rfl⟩ : ∃ m, n = m + 1 := ⟨n - 1, by omega⟩
  unfold totalMass refineLastVol refineLastRho
  rw [Finset.sum_range_succ, Finset.sum_range_succ, Finset.sum_range_succ]
  have h1 : ∀ i ∈ Finset.range m,
      (if i + 1 < m + 1 then vol i else vol (m + 1 - 1) / 2) *
        (if i + 1 < m + 1 then rho i else rho (m + 1 - 1)) =
      vol i * rho i := by
    intro i hi
    rw [Finset.mem_range] at hi
    simp [Nat.succ_lt_succ hi]
  rw [Finset.sum_congr rfl h1]
  have hm : ¬ (m + 1 < m + 1) := by omega
  have hm2 : ¬ (m + 1 + 1 < m + 1) := by omega
  simp only [hm, hm2, if_false, Nat.add_sub_cancel]
  ring

/-- C2: the corrector makes the two flux views of every coarse-fine
interface face agree (the flux leaving the fine region equals the flux
entering from the coarse region at the shared face), and for a closed
domain (zero boundary flux) with zero source term one integrate call,
with the corrector applied, leaves the sum over all cells of density
times cell volume unchanged, both without and with an intervening
conservative AMR regrid. -/
theorem integrate_conserves_total_mass
    (n j : ℕ) (hn : 1 ≤ n) (a0 a1 a2 dt : ℚ) (vol rho S SR : ℕ → ℚ)
    (c cR : CompositeFluxes)
    (ha : a0 + a1 = 1)
    (hS : ∀ i, i < n → S i = 0)
    (hvol : ∀ i, i < n → vol i ≠ 0)
    (hsame : ∀ k, k + 1 < n → c.isCF (k + 1) = false → c.FR k = c.FL (k + 1))
    (hcf0 : c.isCF 0 = false) (hcfn : c.isCF n = false)
    (hb0 : c.FL 0 = 0) (hbn : c.FR (n - 1) = 0)
    (hSR : ∀ i, i < n + 1 → SR i = 0)
    (hsameR : ∀ k, k + 1 < n + 1 → cR.isCF (k + 1) = false →
      cR.FR k = cR.FL (k + 1))
    (hcfR0 : cR.isCF 0 = false) (hcfRn : cR.isCF (n + 1) = false)
    (hbR0 : cR.FL 0 = 0) (hbRn : cR.FR n = 0) :
    (c.isCF (j + 1) = true →
        (enforceConservation c).FR j = (enforceConservation c).FL (j + 1)) ∧
      totalMass n vol (fun i =>
          compositeUpdate a0 a1 a2 dt vol rho S (enforceConservation c) i) =
        totalMass n vol rho ∧
      totalMass (n + 1) (refineLastVol n vol) (fun i =>
          compositeUpdate a0 a1 a2 dt (refineLastVol n vol)
            (refineLastRho n rho) SR (enforceConservation cR) i) =
        totalMass n vol rho := by
  refine ⟨?_, ?_, ?_⟩
  · intro hj
    exact enforce_matched c j (fun hf => by simp [hf] at hj)
  · have hm : ∀ k, k + 1 < n →
        (enforceConservation c).FR k = (enforceConservation c).FL (k + 1) :=
      fun k hk => enforce_matched c k (hsame k hk)
    have h0 : (enforceConservation c).FL 0 = 0 := by
      simp [enforceConservation, hcf0, hb0]
    have hb : 1 ≤ n → (enforceConservation c).FR (n - 1) = 0 := by
      intro _
      have hn1 : n - 1 + 1 = n := by omega
      simp [enforceConservation, hn1, hcfn, hbn]
    exact compositeUpdate_mass n a0 a1 a2 dt vol rho S
      (enforceConservation c) ha hS hvol hm h0 hb
  · have hv : ∀ i, i < n + 1 → refineLastVol n vol i ≠ 0 := by
      intro i hi
      unfold refineLastVol
      by_cases h1 : i + 1 < n
      · simp only [h1, if_true]
        exact hvol i (by omega)
      · simp only [h1, if_false]
        exact div_ne_zero (hvol (n - 1) (by omega)) two_ne_zero
    have hm : ∀ k, k + 1 < n + 1 →
        (enforceConservation cR).FR k = (enforceConservation cR).FL (k + 1) :=
      fun k hk => enforce_matched cR k (hsameR k hk)
    have h0 : (enforceConservation cR).FL 0 = 0 := by
      simp [enforceConservation, hcfR0, hbR0]
    have hb : 1 ≤ n + 1 → (enforceConservation cR).FR (n + 1 - 1) = 0 := by
      intro _
      simp [enforceConservation, hcfRn, hbRn]
    rw [compositeUpdate_mass (n + 1) a0 a1 a2 dt (refineLastVol n vol)
      (refineLastRho n rho) SR (enforceConservation cR) ha hSR hv hm h0 hb]
    exact refineLast_mass n hn vol rho

/-- A quiescent composite flux configuration used as a concrete witness. -/
def zeroFluxes : CompositeFluxes :=
  ⟨fun _ => 0, fun _ => 0, fun _ => false, fun _ => false⟩

/-- C2 witness: the theorem at a concrete one-cell closed domain. -/
theorem integrate_conserves_total_mass_witness :
    (zeroFluxes.isCF (0 + 1) = true →
        (enforceConservation zeroFluxes).FR 0 =
          (enforceConservation zeroFluxes).FL (0 + 1)) ∧
      totalMass 1 (fun _ => 1) (fun i =>
          compositeUpdate 1 0 1 1 (fun _ => 1) (fun _ => 3) (fun _ => 0)
            (enforceConservation zeroFluxes) i) =
        totalMass 1 (fun _ => 1) (fun _ => 3) ∧
      totalMass (1 + 1) (refineLastVol 1 (fun _ => 1)) (fun i =>
          compositeUpdate 1 0 1 1 (refineLastVol 1 (fun _ => 1))
            (refineLastRho 1 (fun _ => 3)) (fun _ => 0)
            (enforceConservation zeroFluxes) i) =
        totalMass 1 (fun _ => 1) (fun _ => 3) := by
  have h := integrate_conserves_total_mass 1 0 (by norm_num) 1 0 1 1
    (fun _ => 1) (fun _ => 3) (fun _ => 0) (fun _ => 0)
    zeroFluxes zeroFluxes (by norm_num)
    (fun _ _ => rfl) (fun _ _ => one_ne_zero)
    (fun k hk _ => rfl) rfl rfl rfl rfl
    (fun _ _ => rfl) (fun k _ _ => rfl) rfl rfl rfl rfl
  exact h

/-- C8: the coarse-fine corrector leaves both face flux views of any cell
not adjacent to a coarse-fine boundary unchanged, and hence the updated
density of such a cell is the same with or without the corrector. -/
theorem corrector_frame_property (c : CompositeFluxes) (a0 a1 a2 dt : ℚ)
    (vol rho S : ℕ → ℚ) (i : ℕ)
    (h1 : c.isCF i = false) (h2 : c.isCF (i + 1) = false) :
    (enforceConservation c).FL i = c.FL i ∧
      (enforceConservation c).FR i = c.FR i ∧
      compositeUpdate a0 a1 a2 dt vol rho S (enforceConservation c) i =
        compositeUpdate a0 a1 a2 dt vol rho S c i := by
  have hFL : (enforceConservation c).FL i = c.FL i := by
    simp [enforceConservation, h1]
  have hFR : (enforceConservation c).FR i = c.FR i := by
    simp [enforceConservation, h2]
  refine ⟨hFL, hFR, ?_⟩
  unfold compositeUpdate
  rw [hFL, hFR]

/-- A composite flux configuration with nonzero fluxes and no coarse-fine
face, used as a concrete witness. -/
def frameFluxes : CompositeFluxes :=
  ⟨fun _ => 1, fun _ => 2, fun _ => false, fun _ => false⟩

/-- C8 witness: the theorem at a concrete interior cell. -/
theorem corrector_frame_property_witness :
    (enforceConservation frameFluxes).FL 0 = frameFluxes.FL 0 ∧
      (enforceConservation frameFluxes).FR 0 = frameFluxes.FR 0 ∧
      compositeUpdate 1 0 1 1 (fun _ => 1) (fun _ => 3) (fun _ => 0)
          (enforceConservation frameFluxes) 0 =
        compositeUpdate 1 0 1 1 (fun _ => 1) (fun _ => 3) (fun _ => 0)
          frameFluxes 0 :=
  corrector_frame_property frameFluxes 1 0 1 1 (fun _ => 1) (fun _ => 3)
    (fun _ => 0) 0 rfl rfl

/-! ## Flux limiter evaluator (spec-modelled, C3) -/

/-- Modelled from the spec: the limiter scheme selecting the face
reconstruction, the body of interpolateCellQuantity being absent from the
excerpt.  The first variant is the first-order upwind scheme; the second
is a bounded scheme given by its limiter function of the local gradient
ratio (the Patel and Natarajan family named at the class documentation,
of which CUI is the header default). -/
inductive SpecLimiter where
  | firstOrderUpwind : SpecLimiter
  | tvdScheme : (ℚ → ℚ) → SpecLimiter

/-- Modelled from the spec: interpolateCellQuantity on a one-dimensional
row with ghost cells (cells indexed by all integers, face j between cells
j-1 and j).  The reconstructed value is selected by the sign of the local
face velocity (upwind-biased): the upwind scheme copies the upstream cell,
and a bounded scheme adds the limited fraction of the jump between the two
cells adjacent to the face, the limiter applied to the gradient ratio of
the upstream-side jump to the face jump. -/
def interpolateCellQuantity (lim : SpecLimiter) (Q u : ℤ → ℚ) (j : ℤ) : ℚ :=
  match lim with
  | SpecLimiter.firstOrderUpwind => if 0 ≤ u j then Q (j - 1) else Q j
  | SpecLimiter.tvdScheme phi =>
      if 0 ≤ u j then
        Q (j - 1) + phi ((Q (j - 1) - Q (j - 2)) / (Q j - Q (j - 1))) / 2 *
          (Q j - Q (j - 1))
      else
        Q j + phi ((Q j - Q (j + 1)) / (Q (j - 1) - Q j)) / 2 *
          (Q (j - 1) - Q j)

/-- The total-variation-diminishing bound on a limiter function: its
values stay in the closed range from zero to two. -/
def IsTVDLimiter (phi : ℚ → ℚ) : Prop := ∀ r, 0 ≤ phi r ∧ phi r ≤ 2

/-- A convex combination of two values stays within their bounds. -/
lemma convex_comb_bounds (a b t : ℚ) (h0 : 0 ≤ t) (h1 : t ≤ 1) :
    min a b ≤ a + t * (b - a) ∧ a + t * (b - a) ≤ max a b := by
  rcases le_total a b with hab | hab
  · rw [min_eq_left hab, max_eq_right hab]
    constructor <;> nlinarith
  · rw [min_eq_right hab, max_eq_left hab]
    constructor <;> nlinarith

/-- C3: the face reconstruction is upwind-selected: with positive face
velocity the first-order upwind limiter returns the upstream cell value
(so over a step field the face value at the step is the upstream value),
and for every limiter satisfying the TVD bound the reconstructed face
value lies within the bounds of the two cells adjacent to the face, for
either velocity sign (no new extrema). -/
theorem limiter_upwind_and_tvd_bounds (phi : ℚ → ℚ)
    (hphi : IsTVDLimiter phi) (Q u : ℤ → ℚ) (j : ℤ) :
    (0 < u j →
        interpolateCellQuantity SpecLimiter.firstOrderUpwind Q u j =
          Q (j - 1)) ∧
      min (Q (j - 1)) (Q j) ≤
        interpolateCellQuantity (SpecLimiter.tvdScheme phi) Q u j ∧
      interpolateCellQuantity (SpecLimiter.tvdScheme phi) Q u j ≤
        max (Q (j - 1)) (Q j) := by
  refine ⟨?_, ?_⟩
  · intro hu
    simp [interpolateCellQuantity, le_of_lt hu]
  · unfold interpolateCellQuantity
    by_cases hu : 0 ≤ u j
    · simp only [hu, if_true]
      obtain ⟨hl, hr⟩ := hphi ((Q (j - 1) - Q (j - 2)) / (Q j - Q (j - 1)))
      exact convex_comb_bounds (Q (j - 1)) (Q j) _
        (by positivity) (by linarith)
    · simp only [hu, if_false]
      have h := convex_comb_bounds (Q j) (Q (j - 1))
        (phi ((Q j - Q (j + 1)) / (Q (j - 1) - Q j)) / 2)
        (by obtain ⟨hl, _⟩ := hphi ((Q j - Q (j + 1)) / (Q (j - 1) - Q j))
            positivity)
        (by obtain ⟨_, hr⟩ := hphi ((Q j - Q (j + 1)) / (Q (j - 1) - Q j))
            linarith)
      rw [min_comm, max_comm]
      exact h

/-- The step-function field of the spec scenario. -/
def stepQ : ℤ → ℚ := fun k => if k < 0 then 1 else 2

/-- The uniform rightward unit velocity of the spec scenario. -/
def unitU : ℤ → ℚ := fun _ => 1

/-- A concrete limiter function satisfying the TVD bound. -/
def onePhi : ℚ → ℚ := fun _ => 1

/-- C3 witness: the theorem at the step-function scenario of the spec. -/
theorem limiter_upwind_and_tvd_bounds_witness :
    (0 < unitU 0 →
        interpolateCellQuantity SpecLimiter.firstOrderUpwind stepQ unitU 0 =
          stepQ (0 - 1)) ∧
      min (stepQ (0 - 1)) (stepQ 0) ≤
        interpolateCellQuantity (SpecLimiter.tvdScheme onePhi) stepQ unitU 0 ∧
      interpolateCellQuantity (SpecLimiter.tvdScheme onePhi) stepQ unitU 0 ≤
        max (stepQ (0 - 1)) (stepQ 0) :=
  limiter_upwind_and_tvd_bounds onePhi
    (fun _ => ⟨by norm_num [onePhi], by norm_num [onePhi]⟩) stepQ unitU 0

/-! ## IBHierarchyIntegrator (embedded from src/src/IB/IBHierarchyIntegrator.cpp) -/

/-- The two fatal diagnostics issued by the body of
IBHierarchyIntegrator::preprocessIntegrateHierarchy: the cycle-count
mismatch (lines 180 to 189) and the time-step-size change (lines 218 to
222). -/
inductive PreprocessError where
  | cycleMismatch : PreprocessError
  | dtChange : PreprocessError
  deriving DecidableEq

/-- The fields of IBHierarchyIntegrator read by
preprocessIntegrateHierarchy.  Floating-point times are carried as
rationals; the tolerance comparison IBTK::rel_equal_eps (outside the
excerpt) is passed in as an abstract boolean comparison. -/
structure IBState where
  insPresent : Bool
  insNumCycles : Int
  currentNumCycles : Int
  errorOnDtChange : Bool
  warnOnDtChange : Bool
  integratorTime : ℚ
  startTime : ℚ
  endTime : ℚ
  dtPrev : ℚ
  fromRestart : Bool
  deriving DecidableEq

/-- IBHierarchyIntegrator::preprocessIntegrateHierarchy, lines 166 to 232
of IBHierarchyIntegrator.cpp.  skipStatic carries the value of the
function-static flag skip_check_for_dt_change (none when the static has
not yet been initialized in this process); the external patch-data
allocation loop touches no field modelled here.  The result on the
non-aborting path is the pair of the warning emission and the new value
of the static; TBOX_ERROR aborts the process, modelled as an error
result.  Note the static is initialized, from the calling instance, only
when control reaches the dt check, and is set to false after it. -/
def preprocessIntegrateHierarchy (relEq : ℚ → ℚ → Bool)
    (skipStatic : Option Bool) (s : IBState) (currentTime newTime : ℚ) :
    Except PreprocessError (Bool × Option Bool) :=
  if s.insPresent = true ∧ s.insNumCycles ≠ s.currentNumCycles ∧
      s.currentNumCycles ≠ 1 then
    Except.error PreprocessError.cycleMismatch
  else if skipStatic.getD
        (relEq s.integratorTime s.startTime || s.fromRestart) = false ∧
      (s.errorOnDtChange = true ∨ s.warnOnDtChange = true) ∧
      relEq (newTime - currentTime) s.dtPrev = false ∧
      relEq newTime s.endTime = false then
    if s.errorOnDtChange = true then Except.error PreprocessError.dtChange
    else Except.ok (true, some false)
  else Except.ok (false, some false)

/-- The exact rational comparison, a concrete instance of the abstract
tolerance comparison used in witnesses and counterexamples. -/
def exactEq (a b : ℚ) : Bool := decide (a = b)

/-- A concrete state at which the claim that preprocessIntegrateHierarchy
aborts only on a cycle-count mismatch fails: cycle counts match. -/
def dtAbortState : IBState :=
  { insPresent := true, insNumCycles := 1, currentNumCycles := 1,
    errorOnDtChange := true, warnOnDtChange := false,
    integratorTime := 1, startTime := 0, endTime := 10,
    dtPrev := 1, fromRestart := false }

/-- C7 counterexample: with matching cycle counts (both one) the call can
still abort fatally, through the time-step-size-change diagnostic, so the
claimed equivalence between aborting and the cycle-count condition fails
at this input. -/
theorem preprocess_abort_iff_counterexample :
    preprocessIntegrateHierarchy exactEq (some false) dtAbortState 1 3 =
        Except.error PreprocessError.dtChange ∧
      dtAbortState.insPresent = true ∧
      ¬(dtAbortState.insNumCycles ≠ dtAbortState.currentNumCycles ∧
        dtAbortState.currentNumCycles ≠ 1) := by
  refine ⟨?_, rfl, by simp [dtAbortState]⟩
  norm_num [preprocessIntegrateHierarchy, dtAbortState, exactEq]

/-- C7 (amended): with a Navier-Stokes child integrator present, the call
aborts with the cycle-count-mismatch diagnostic exactly when the
Navier-Stokes cycle count differs from the IB cycle count and the IB
cycle count is not one; the abort is a fatal error carrying no recovered
state.  (The separate time-step-size-change check may abort the same call
independently.) -/
theorem preprocess_cycle_check_iff (relEq : ℚ → ℚ → Bool)
    (skipStatic : Option Bool) (s : IBState) (currentTime newTime : ℚ)
    (hins : s.insPresent = true) :
    preprocessIntegrateHierarchy relEq skipStatic s currentTime newTime =
        Except.error PreprocessError.cycleMismatch ↔
      (s.insNumCycles ≠ s.currentNumCycles ∧ s.currentNumCycles ≠ 1) := by
  unfold preprocessIntegrateHierarchy
  by_cases h1 : s.insPresent = true ∧ s.insNumCycles ≠ s.currentNumCycles ∧
      s.currentNumCycles ≠ 1
  · rw [if_pos h1]
    exact iff_of_true rfl h1.2
  · rw [if_neg h1]
    have hcond : ¬(s.insNumCycles ≠ s.currentNumCycles ∧
        s.currentNumCycles ≠ 1) := fun hc => h1 ⟨hins, hc⟩
    refine iff_of_false (fun habs => ?_) hcond
    split_ifs at habs
    simp_all

/-- C7 witness: the amended theorem at a concrete mismatched-cycle state. -/
theorem preprocess_cycle_check_iff_witness :
    preprocessIntegrateHierarchy exactEq none
        { insPresent := true, insNumCycles := 2, currentNumCycles := 3,
          errorOnDtChange := false, warnOnDtChange := false,
          integratorTime := 0, startTime := 0, endTime := 1,
          dtPrev := 1, fromRestart := false } 0 1 =
        Except.error PreprocessError.cycleMismatch ↔
      ((2 : Int) ≠ 3 ∧ (3 : Int) ≠ 1) :=
  preprocess_cycle_check_iff exactEq none
    { insPresent := true, insNumCycles := 2, currentNumCycles := 3,
      errorOnDtChange := false, warnOnDtChange := false,
      integratorTime := 0, startTime := 0, endTime := 1,
      dtPrev := 1, fromRestart := false } 0 1 rfl

/-- The data centering of the velocity variable, as discriminated at
lines 390 to 409 of IBHierarchyIntegrator.cpp. -/
inductive VelocityCentering where
  | cellCentered : VelocityCentering
  | sideCentered : VelocityCentering
  | unsupported : VelocityCentering
  deriving DecidableEq

/-- The initialization state of IBHierarchyIntegrator mutated by
initializeHierarchyIntegrator (lines 318 to 494) and
initializePatchHierarchy (lines 496 to 548). -/
structure IBInitState where
  integratorInitialized : Bool
  hierarchyInitialized : Bool
  hierarchySet : Bool
  griddingAlgSet : Bool
  uCentering : VelocityCentering
  tagBufferSetUp : Bool
  deriving DecidableEq

/-- IBHierarchyIntegrator::initializeHierarchyIntegrator: returns at once
when already initialized (line 322); aborts with TBOX_ERROR on an
unsupported velocity data centering (line 406); otherwise records the
hierarchy and gridding algorithm, builds the communication algorithms
(external), sets up the tag buffer, and latches the initialized flag
(line 492). -/
def initializeHierarchyIntegrator (s : IBInitState) :
    Except Unit IBInitState :=
  if s.integratorInitialized = true then Except.ok s
  else if s.uCentering = VelocityCentering.unsupported then Except.error ()
  else Except.ok { s with hierarchySet := true, griddingAlgSet := true,
                          tagBufferSetUp := true,
                          integratorInitialized := true }

/-- IBHierarchyIntegrator::initializePatchHierarchy: returns at once when
the hierarchy is already initialized (line 500); the Eulerian and
Lagrangian data initialization acts on external patch data (allocated and
deallocated again within the call), so the surviving state change is the
latching of the flag (line 546). -/
def initializePatchHierarchy (s : IBInitState) : IBInitState :=
  if s.hierarchyInitialized = true then s
  else { s with hierarchyInitialized := true }

/-- C9: a second call to initializeHierarchyIntegrator returns immediately
with the state unmodified, so two calls equal one; likewise
initializePatchHierarchy returns immediately when the hierarchy flag is
set and is idempotent. -/
theorem initialize_idempotent (s t u : IBInitState)
    (h1 : s.integratorInitialized = true)
    (h2 : initializeHierarchyIntegrator t = Except.ok u) :
    initializeHierarchyIntegrator s = Except.ok s ∧
      initializeHierarchyIntegrator u = Except.ok u ∧
      (s.hierarchyInitialized = true → initializePatchHierarchy s = s) ∧
      initializePatchHierarchy (initializePatchHierarchy t) =
        initializePatchHierarchy t := by
  have hu : u.integratorInitialized = true := by
    unfold initializeHierarchyIntegrator at h2
    split_ifs at h2 with ha hb
    · rw [Except.ok.injEq] at h2
      rw [← h2]
      exact ha
    · rw [Except.ok.injEq] at h2
      rw [← h2]
  refine ⟨?_, ?_, ?_, ?_⟩
  · unfold initializeHierarchyIntegrator
    rw [if_pos h1]
  · unfold initializeHierarchyIntegrator
    rw [if_pos hu]
  · intro hh
    unfold initializePatchHierarchy
    rw [if_pos hh]
  · by_cases hh : t.hierarchyInitialized = true
    · simp [initializePatchHierarchy, hh]
    · simp [initializePatchHierarchy, hh]

/-- A concrete already-initialized integrator state. -/
def doneState : IBInitState :=
  ⟨true, true, true, true, VelocityCentering.sideCentered, true⟩

/-- A concrete freshly constructed integrator state. -/
def freshState : IBInitState :=
  ⟨false, false, false, false, VelocityCentering.sideCentered, false⟩

/-- The state freshState reaches after one initialization call. -/
def freshStateDone : IBInitState :=
  ⟨true, false, true, true, VelocityCentering.sideCentered, true⟩

/-- C9 witness: the theorem at the concrete states. -/
theorem initialize_idempotent_witness :
    initializeHierarchyIntegrator doneState = Except.ok doneState ∧
      initializeHierarchyIntegrator freshStateDone =
        Except.ok freshStateDone ∧
      (doneState.hierarchyInitialized = true →
        initializePatchHierarchy doneState = doneState) ∧
      initializePatchHierarchy (initializePatchHierarchy freshState) =
        initializePatchHierarchy freshState :=
  initialize_idempotent doneState freshState freshStateDone rfl rfl

/-- C10: the time-step-size-change check in preprocessIntegrateHierarchy
raises its fatal error or its warning only when the error or warn flag is
configured, the new step size differs under the tolerance comparison from
the previous one, and the new time is not the end time; with the
function-static flag not yet initialized, a run starting at the start
time or from restart skips the check entirely; every completing call
latches the shared static to false; and once the static is false the
exemption is gone for every integrator instance in the process, whatever
its own start state, so a qualifying change then aborts. -/
theorem dt_change_check_behavior (relEq : ℚ → ℚ → Bool) (st : Option Bool)
    (s : IBState) (ct nt : ℚ) (w : Bool) (stOut : Option Bool) :
    ((preprocessIntegrateHierarchy relEq st s ct nt =
          Except.error PreprocessError.dtChange ∨
        preprocessIntegrateHierarchy relEq st s ct nt =
          Except.ok (true, some false)) →
      (s.errorOnDtChange = true ∨ s.warnOnDtChange = true) ∧
        relEq (nt - ct) s.dtPrev = false ∧ relEq nt s.endTime = false) ∧
      (st = none →
        (relEq s.integratorTime s.startTime || s.fromRestart) = true →
        preprocessIntegrateHierarchy relEq st s ct nt =
            Except.error PreprocessError.cycleMismatch ∨
          preprocessIntegrateHierarchy relEq st s ct nt =
            Except.ok (false, some false)) ∧
      (preprocessIntegrateHierarchy relEq st s ct nt =
          Except.ok (w, stOut) → stOut = some false) ∧
      (st = some false → s.errorOnDtChange = true →
        ¬(s.insPresent = true ∧ s.insNumCycles ≠ s.currentNumCycles ∧
            s.currentNumCycles ≠ 1) →
        relEq (nt - ct) s.dtPrev = false → relEq nt s.endTime = false →
        preprocessIntegrateHierarchy relEq st s ct nt =
          Except.error PreprocessError.dtChange) := by
  refine ⟨?_, ?_, ?_, ?_⟩
  · intro h
    unfold preprocessIntegrateHierarchy at h
    split_ifs at h with h1 h2 h3
    · rcases h with h | h <;> simp_all
    · exact ⟨h2.2.1, h2.2.2.1, h2.2.2.2⟩
    · exact ⟨h2.2.1, h2.2.2.1, h2.2.2.2⟩
    · rcases h with h | h <;> simp_all
  · intro hst hskip
    subst hst
    unfold preprocessIntegrateHierarchy
    by_cases h1 : s.insPresent = true ∧ s.insNumCycles ≠ s.currentNumCycles ∧
        s.currentNumCycles ≠ 1
    · rw [if_pos h1]
      exact Or.inl rfl
    · rw [if_neg h1]
      have hc : ¬((Option.none.getD
            (relEq s.integratorTime s.startTime || s.fromRestart) = false) ∧
          (s.errorOnDtChange = true ∨ s.warnOnDtChange = true) ∧
          relEq (nt - ct) s.dtPrev = false ∧
          relEq nt s.endTime = false) := by
        intro hc
        rw [Option.getD_none, hskip] at hc
        exact Bool.noConfusion hc.1
      rw [if_neg hc]
      exact Or.inr rfl
  · intro h
    unfold preprocessIntegrateHierarchy at h
    split_ifs at h <;> simp_all
  · intro hst herr hnc hdt hend
    subst hst
    unfold preprocessIntegrateHierarchy
    rw [if_neg hnc, if_pos ⟨rfl, Or.inl herr, hdt, hend⟩, if_pos herr]

/-- C10 witness: the theorem at the concrete latched-static state. -/
theorem dt_change_check_behavior_witness :
    ((preprocessIntegrateHierarchy exactEq (some false) dtAbortState 1 3 =
          Except.error PreprocessError.dtChange ∨
        preprocessIntegrateHierarchy exactEq (some false) dtAbortState 1 3 =
          Except.ok (true, some false)) →
      (dtAbortState.errorOnDtChange = true ∨
          dtAbortState.warnOnDtChange = true) ∧
        exactEq (3 - 1) dtAbortState.dtPrev = false ∧
        exactEq 3 dtAbortState.endTime = false) ∧
      ((some false : Option Bool) = none →
        (exactEq dtAbortState.integratorTime dtAbortState.startTime ||
          dtAbortState.fromRestart) = true →
        preprocessIntegrateHierarchy exactEq (some false) dtAbortState 1 3 =
            Except.error PreprocessError.cycleMismatch ∨
          preprocessIntegrateHierarchy exactEq (some false) dtAbortState 1 3 =
            Except.ok (false, some false)) ∧
      (preprocessIntegrateHierarchy exactEq (some false) dtAbortState 1 3 =
          Except.ok (false, some false) → (some false : Option Bool) =
            some false) ∧
      ((some false : Option Bool) = some false →
        dtAbortState.errorOnDtChange = true →
        ¬(dtAbortState.insPresent = true ∧
            dtAbortState.insNumCycles ≠ dtAbortState.currentNumCycles ∧
            dtAbortState.currentNumCycles ≠ 1) →
        exactEq (3 - 1) dtAbortState.dtPrev = false →
        exactEq 3 dtAbortState.endTime = false →
        preprocessIntegrateHierarchy exactEq (some false) dtAbortState 1 3 =
          Except.error PreprocessError.dtChange) :=
  dt_change_check_behavior exactEq (some false) dtAbortState 1 3 false
    (some false)
